/-
Verification of the ASCII wireframe-cube frame generator
(scripts/gen_frames.py) against its design specification.

The generator is embedded shallowly.  The numeric pipeline (projection,
back-face culling, line rasterization onto a character canvas) is written
over an arbitrary linear ordered field with a floor, so that the same
definitions serve ℚ (for concrete evaluation) and ℝ (for the statements
about the real-valued pipeline; Python floats are modelled by real
numbers).  Python's `round` (round half to even) is modelled exactly.
The trigonometric layer (`_rot`, the per-frame angle schedule) is over ℝ.
Filesystem writes of `main` are modelled as the list of
(file name, contents) pairs the driver produces, in order.
-/
import Mathlib

namespace GenFrames

/-! ## Module constants (gen_frames.py lines 16-20) -/

def ROWS : ℕ := 17

def COLS : ℕ := 42

def NUM_FRAMES : ℕ := 36

/-- Constant `SCALE = 4.2`, the cube half-size. -/
def SCALE : ℚ := 4.2

/-- Constant `ASPECT = 2.1`, the terminal character height/width ratio. -/
def ASPECT : ℚ := 2.1

section Pipeline

variable {K : Type} [LinearOrderedField K] [FloorRing K]

/-- Python's built-in `round`: nearest integer, ties go to the even
integer (banker's rounding), as applied by `_draw_line` and the vertex
marker loop of `_render_frame`. -/
def pyRound (x : K) : ℤ :=
  if x - ⌊x⌋ < 1 / 2 then ⌊x⌋
  else if 1 / 2 < x - ⌊x⌋ then ⌊x⌋ + 1
  else if Even ⌊x⌋ then ⌊x⌋ else ⌊x⌋ + 1

/-- Function `_project` (lines 39-40): orthographic projection to (column, row);
the third coordinate is accepted and ignored, as in the source. -/
def project (x y z : K) : K × K :=
  ((COLS : K) / 2 + x * (ASPECT : K), (ROWS : K) / 2 + y)

/-! ## Cube definition (lines 45-74) -/

/-- Table `_VERTS`: the 8 cube corners. -/
def VERTS : Fin 8 → ℤ × ℤ × ℤ :=
  ![(-1, -1, -1), (1, -1, -1), (1, 1, -1), (-1, 1, -1),
    (-1, -1, 1), (1, -1, 1), (1, 1, 1), (-1, 1, 1)]

/-- Table `_EDGES`: the 12 cube edges, as pairs of vertex indices. -/
def EDGES : List (Fin 8 × Fin 8) :=
  [(0, 1), (1, 2), (2, 3), (3, 0),
   (4, 5), (5, 6), (6, 7), (7, 4),
   (0, 4), (1, 5), (2, 6), (3, 7)]

/-- Table `_FACES`: each face as 4 vertex indices in CCW order seen from outside. -/
def FACES : Fin 6 → Fin 8 × Fin 8 × Fin 8 × Fin 8 :=
  ![(0, 3, 2, 1), (4, 5, 6, 7), (0, 1, 5, 4), (2, 3, 7, 6), (0, 4, 7, 3), (1, 2, 6, 5)]

/-- Table `_FACE_EDGES`: the edge set of each face (Python uses a `set` of
pairs; only membership is ever used, so a list is a faithful model). -/
def FACE_EDGES : Fin 6 → List (Fin 8 × Fin 8) :=
  ![[(0, 1), (1, 2), (2, 3), (3, 0)],
    [(4, 5), (5, 6), (6, 7), (7, 4)],
    [(0, 1), (1, 5), (5, 4), (0, 4)],
    [(2, 3), (3, 7), (7, 6), (2, 6)],
    [(0, 3), (3, 7), (7, 4), (0, 4)],
    [(1, 2), (2, 6), (6, 5), (1, 5)]]

/-! ## Visibility (lines 77-91, 147-152) -/

/-- The Z-component of the face normal `_face_visible` computes: the cross
product of the two edge vectors from the face's first three vertices
(`nx` and `ny` are computed by the source as well but never used). -/
def faceNormalZ (verts_3d : Fin 8 → K × K × K) (face : Fin 8 × Fin 8 × Fin 8 × Fin 8) : K :=
  let (a, b, c, _) := face
  let (px, py, pz) := verts_3d a
  let (qx, qy, qz) := verts_3d b
  let (rx, ry, rz) := verts_3d c
  let e1 := (qx - px, qy - py, qz - pz)
  let e2 := (rx - px, ry - py, rz - pz)
  e1.1 * e2.2.1 - e1.2.1 * e2.1

/-- Function `_face_visible`: the face is front-facing iff the normal's
Z-component is strictly positive (the unused `cam_z` parameter of the
source is dropped). -/
def faceVisible (verts_3d : Fin 8 → K × K × K) (face : Fin 8 × Fin 8 × Fin 8 × Fin 8) : Bool :=
  decide (0 < faceNormalZ verts_3d face)

/-- The `visible_edges` set built by `_render_frame` (lines 147-152):
every edge of every visible face. -/
def visibleEdges (verts_3d : Fin 8 → K × K × K) : List (Fin 8 × Fin 8) :=
  ((List.finRange 6).filter (fun fi => faceVisible verts_3d (FACES fi))).flatMap FACE_EDGES

/-- The test of lines 158-159: edge `(i0, i1)` is drawn unless neither
`(i0, i1)` nor `(i1, i0)` is in `visible_edges`. -/
def edgeDrawn (verts_3d : Fin 8 → K × K × K) (e : Fin 8 × Fin 8) : Bool :=
  decide (e ∈ visibleEdges verts_3d) || decide ((e.2, e.1) ∈ visibleEdges verts_3d)

/-! ## Canvas and line drawing (lines 96-130, 154-169) -/

/-- The canvas: a mutable `ROWS × COLS` grid of characters in the source,
modelled as a list of rows, each a list of characters. -/
abbrev Canvas := List (List Char)

/-- The fresh canvas of line 155: all blanks. -/
def mkCanvas : Canvas := List.replicate ROWS (List.replicate COLS ' ')

/-- The guard `0 <= r < ROWS and 0 <= c < COLS` used before every write. -/
def inCanvas (r c : ℤ) : Bool :=
  decide (0 ≤ r ∧ r < (ROWS : ℤ) ∧ 0 ≤ c ∧ c < (COLS : ℤ))

/-- A guarded write `canvas[r][c] = ch`: performed only when `(r, c)` is
inside the grid, exactly as every write site of the source checks. -/
def plotPoint (cv : Canvas) (r c : ℤ) (ch : Char) : Canvas :=
  if inCanvas r c then cv.set r.toNat ((cv.getD r.toNat []).set c.toNat ch) else cv

/-- The sampling loop of `_draw_line` (lines 110-130): the state carries
the canvas and `prev_c, prev_r`; `prev` is updated even for samples that
fall outside the grid, as in the source. -/
def drawLineGo (c0 r0 c1 r1 : K) (ic0 ir0 ic1 ir1 : ℤ) (steps : ℕ) :
    List ℕ → Canvas × ℤ × ℤ → Canvas × ℤ × ℤ
  | [], st => st
  | i :: rest, (cv, prev_c, prev_r) =>
      let t : K := (i : K) / (steps : K)
      let c := pyRound (c0 + t * (c1 - c0))
      let r := pyRound (r0 + t * (r1 - r0))
      let sc := if i = 0 then ic1 - ic0 else c - prev_c
      let sr := if i = 0 then ir1 - ir0 else r - prev_r
      let ch : Char :=
        if sr = 0 then '-'
        else if sc = 0 then '|'
        else if (0 < sc ∧ 0 < sr) ∨ (sc < 0 ∧ sr < 0) then '\\'
        else '/'
      drawLineGo c0 r0 c1 r1 ic0 ir0 ic1 ir1 steps rest (plotPoint cv r c ch, c, r)

/-- Function `_draw_line` (lines 96-130). -/
def drawLine (cv : Canvas) (c0 r0 c1 r1 : K) : Canvas :=
  let ic0 := pyRound c0
  let ir0 := pyRound r0
  let ic1 := pyRound c1
  let ir1 := pyRound r1
  let dc := ic1 - ic0
  let dr := ir1 - ir0
  let steps := max dc.natAbs dr.natAbs
  if steps = 0 then plotPoint cv ir0 ic0 '+'
  else (drawLineGo c0 r0 c1 r1 ic0 ir0 ic1 ir1 steps (List.range (steps + 1)) (cv, ic0, ir0)).1

/-- The body of `_render_frame` after the vertices have been rotated
(lines 140-169): project, cull, draw the visible edges in edge-list
order, then overwrite with the vertex markers. -/
def renderCanvas (verts_3d : Fin 8 → K × K × K) : Canvas :=
  let verts_2d : Fin 8 → K × K :=
    fun i => project (verts_3d i).1 (verts_3d i).2.1 (verts_3d i).2.2
  let canvas1 := EDGES.foldl (fun cv e =>
    if edgeDrawn verts_3d e then
      drawLine cv (verts_2d e.1).1 (verts_2d e.1).2 (verts_2d e.2).1 (verts_2d e.2).2
    else cv) mkCanvas
  (List.finRange 8).foldl (fun cv i =>
    plotPoint cv (pyRound (verts_2d i).2) (pyRound (verts_2d i).1) 'o') canvas1

/-- Line 171, `"\n".join("".join(row) for row in canvas)`: the rows
joined by newline characters. -/
def renderString (verts_3d : Fin 8 → K × K × K) : String :=
  String.mk (List.intercalate ['\n'] (renderCanvas verts_3d))

end Pipeline

/-! ## Rotation and the frame driver (lines 25-36, 133-137, 174-180) -/

/-- Function `_rot` (lines 25-36): Euler rotation, X then Y then Z, with the
sequential reassignments of the source written out. -/
noncomputable def rot (x y z ax ay az : ℝ) : ℝ × ℝ × ℝ :=
  let s1 := Real.sin ax
  let c1 := Real.cos ax
  let y1 := y * c1 - z * s1
  let z1 := y * s1 + z * c1
  let s2 := Real.sin ay
  let c2 := Real.cos ay
  let x2 := x * c2 + z1 * s2
  let z2 := -x * s2 + z1 * c2
  let s3 := Real.sin az
  let c3 := Real.cos az
  let x3 := x2 * c3 - y1 * s3
  let y3 := x2 * s3 + y1 * c3
  (x3, y3, z2)

/-- The angle schedule of `_render_frame` (lines 134-137). -/
noncomputable def frameAngles (frame : ℕ) : ℝ × ℝ × ℝ :=
  let t : ℝ := 2.0 * Real.pi * frame / NUM_FRAMES
  (0.6, t + Real.pi / 4, t * 0.35 + 0.3)

/-- The rotated vertex list of lines 140-144. -/
noncomputable def frameVerts (frame : ℕ) : Fin 8 → ℝ × ℝ × ℝ := fun i =>
  let a := frameAngles frame
  let v := VERTS i
  rot ((v.1 : ℝ) * (SCALE : ℝ)) ((v.2.1 : ℝ) * (SCALE : ℝ)) ((v.2.2 : ℝ) * (SCALE : ℝ))
    a.1 a.2.1 a.2.2

/-- Function `_render_frame` at index `frame`: the full frame string. -/
noncomputable def renderFrame (frame : ℕ) : String :=
  renderString (frameVerts frame)

/-- The writes `main` performs (lines 177-179), in order: for
`f = 1 .. NUM_FRAMES` the file `frame_f.txt` receives frame index
`f - 1`.  The render function is a parameter so that the driver's loop
structure can be stated independently of the real-valued renderer. -/
def mainWrites (render : ℕ → String) : List (String × String) :=
  (List.range NUM_FRAMES).map fun j =>
    ("frame_" ++ toString (j + 1) ++ ".txt", render (j + 1 - 1))

/-- The transformed vertices of the zero-rotation scenario
(`ax = ay = az = 0`): rotation is the identity, so each vertex is just
scaled by `SCALE`. -/
def zeroRotVerts : Fin 8 → ℚ × ℚ × ℚ := fun i =>
  (((VERTS i).1 : ℚ) * SCALE, ((VERTS i).2.1 : ℚ) * SCALE, ((VERTS i).2.2 : ℚ) * SCALE)

/-! ## Specification-side definitions (spec sections 4.3 and 4.4) -/

/-- Spec 4.3: the boundary edges of a quad face are its consecutive
vertex pairs, last back to first. -/
def boundaryEdges (f : Fin 8 × Fin 8 × Fin 8 × Fin 8) : List (Fin 8 × Fin 8) :=
  [(f.1, f.2.1), (f.2.1, f.2.2.1), (f.2.2.1, f.2.2.2), (f.2.2.2, f.1)]

/-- Spec 4.3: `e` is a boundary edge of face `fi`; edges are unordered,
so either orientation counts. -/
def isBoundaryEdge (fi : Fin 6) (e : Fin 8 × Fin 8) : Prop :=
  e ∈ boundaryEdges (FACES fi) ∨ (e.2, e.1) ∈ boundaryEdges (FACES fi)

/-- Spec 4.4 glyph table: `sr = 0` → "-"; else `sc = 0` → "|"; else same
signs → "\"; opposite signs → "/". -/
def glyphOf (sc sr : ℤ) : Char :=
  if sr = 0 then '-'
  else if sc = 0 then '|'
  else if (0 < sc ∧ 0 < sr) ∨ (sc < 0 ∧ sr < 0) then '\\'
  else '/'

section SpecSide

variable {K : Type} [LinearOrderedField K] [FloorRing K]

/-- Spec 4.4: sample `i` of a line with `steps` steps: the unrounded
endpoints interpolated at fraction `i / steps`, then rounded. -/
def samplePoint (c0 r0 c1 r1 : K) (steps i : ℕ) : ℤ × ℤ :=
  (pyRound (c0 + ((i : K) / (steps : K)) * (c1 - c0)),
   pyRound (r0 + ((i : K) / (steps : K)) * (r1 - r0)))

/-- Spec 4.4, one plotted sample: plot sample `i`, the glyph chosen from
the local direction `(sc, sr)` — rounded-start → rounded-end for
`i = 0`, sample `(i-1)` → sample `i` for `i > 0`. -/
def specStep (c0 r0 c1 r1 : K) (ic0 ir0 ic1 ir1 : ℤ) (steps : ℕ) (d : Canvas) (i : ℕ) : Canvas :=
  let p := samplePoint c0 r0 c1 r1 steps i
  let q := samplePoint c0 r0 c1 r1 steps (i - 1)
  let sc : ℤ := if i = 0 then ic1 - ic0 else p.1 - q.1
  let sr : ℤ := if i = 0 then ir1 - ir0 else p.2 - q.2
  plotPoint d p.2 p.1 (glyphOf sc sr)

/-- The line drawer as the specification words it: round the endpoints;
`steps = max(|Δcolumn|, |Δrow|)` of the rounded deltas; a single "+"
when `steps = 0`; otherwise plot sample `i` for each `i = 0 .. steps`. -/
def drawLineSpec (cv : Canvas) (c0 r0 c1 r1 : K) : Canvas :=
  let ic0 := pyRound c0
  let ir0 := pyRound r0
  let ic1 := pyRound c1
  let ir1 := pyRound r1
  let steps := max (ic1 - ic0).natAbs (ir1 - ir0).natAbs
  if steps = 0 then plotPoint cv ir0 ic0 '+'
  else (List.range (steps + 1)).foldl (specStep c0 r0 c1 r1 ic0 ir0 ic1 ir1 steps) cv

end SpecSide

/-- The seven characters a rendered frame can contain. -/
def glyphList : List Char := [' ', '-', '|', '\\', '/', '+', 'o']

/-- The standard right-handed rotation matrix about the X axis. -/
noncomputable def Rx (θ : ℝ) : Matrix (Fin 3) (Fin 3) ℝ :=
  !![1, 0, 0; 0, Real.cos θ, -Real.sin θ; 0, Real.sin θ, Real.cos θ]

/-- The standard right-handed rotation matrix about the Y axis. -/
noncomputable def Ry (θ : ℝ) : Matrix (Fin 3) (Fin 3) ℝ :=
  !![Real.cos θ, 0, Real.sin θ; 0, 1, 0; -Real.sin θ, 0, Real.cos θ]

/-- The standard right-handed rotation matrix about the Z axis. -/
noncomputable def Rz (θ : ℝ) : Matrix (Fin 3) (Fin 3) ℝ :=
  !![Real.cos θ, -Real.sin θ, 0; Real.sin θ, Real.cos θ, 0; 0, 0, 1]

/-- A point triple as a vector, for applying the rotation matrices. -/
def toVec (p : ℝ × ℝ × ℝ) : Fin 3 → ℝ := ![p.1, p.2.1, p.2.2]

/-! ## C9: projection -/

/-- C9: for every rotated 3D point (x, y, z), `_project` returns exactly
(COLS/2 + x·ASPECT, ROWS/2 + y) as (column, row), and the z-coordinate
has no effect on the result. -/
theorem project_formula_and_ignores_z (x y z : ℝ) :
    project x y z = ((COLS : ℝ) / 2 + x * (ASPECT : ℝ), (ROWS : ℝ) / 2 + y) ∧
    ∀ w : ℝ, project x y z = project x y w :=
  ⟨rfl, fun _ => rfl⟩

/-! ## C5: the per-frame angle schedule -/

/-- C5: frame `i` (with `t = 2π·i/NUM_FRAMES`) is rendered with angles
`ax = 0.6`, `ay = t + π/4`, `az = 0.35·t + 0.3`; frame 0 uses exactly
`(0.6, π/4, 0.3)`. -/
theorem frameAngles_schedule (i : ℕ) (h : i < NUM_FRAMES) :
    frameAngles i =
      (0.6, 2 * Real.pi * i / NUM_FRAMES + Real.pi / 4,
        0.35 * (2 * Real.pi * i / NUM_FRAMES) + 0.3) ∧
    frameAngles 0 = (0.6, Real.pi / 4, 0.3) := by
  constructor
  · simp only [frameAngles, Prod.mk.injEq]
    norm_num
    ring
  · simp only [frameAngles, Prod.mk.injEq]
    norm_num

/-- C5, instantiated at frame index 3. -/
theorem frameAngles_schedule_witness :
    (frameAngles 3 =
      (0.6, 2 * Real.pi * ((3 : ℕ) : ℝ) / NUM_FRAMES + Real.pi / 4,
        0.35 * (2 * Real.pi * ((3 : ℕ) : ℝ) / NUM_FRAMES) + 0.3)) ∧
    frameAngles 0 = (0.6, Real.pi / 4, 0.3) :=
  frameAngles_schedule 3 (by decide)

/-! ## C7: the driver's output files -/

/-- C7: the driver performs exactly NUM_FRAMES = 36 writes, and for
every N with 1 ≤ N ≤ 36 the (N-1)-th write stores frame index N-1 under
the 1-based file name tagged N. -/
theorem mainWrites_count_and_names (render : ℕ → String) (N : ℕ)
    (h1 : 1 ≤ N) (h2 : N ≤ NUM_FRAMES) :
    (mainWrites render).length = NUM_FRAMES ∧
    (mainWrites render).get? (N - 1) =
      some ("frame_" ++ toString N ++ ".txt", render (N - 1)) := by
  constructor
  · simp [mainWrites]
  · have hlt : N - 1 < NUM_FRAMES := by omega
    have hN : N - 1 + 1 = N := by omega
    simp only [mainWrites, List.get?_map, List.get?_range hlt, Option.map_some', hN]

/-- C7, instantiated at N = 5 with a constant render function. -/
theorem mainWrites_count_and_names_witness :
    (mainWrites fun _ => "").length = NUM_FRAMES ∧
    (mainWrites fun _ => "").get? (5 - 1) =
      some ("frame_" ++ toString 5 ++ ".txt", "") :=
  mainWrites_count_and_names (fun _ => "") 5 (by decide) (by decide)

/-! ## C8: out-of-bounds points are silently dropped -/

/-- C8: a rasterized point whose rounded coordinates fall outside
[0, ROWS) × [0, COLS) writes nothing: the guarded write returns the
canvas unchanged (no exception is modelled because the write is total,
and no wrap-around to another cell occurs since no cell changes); in
particular a degenerate line whose endpoints round to such a point
leaves the canvas untouched. -/
theorem out_of_bounds_point_skipped (cv : Canvas) (r c : ℤ) (ch : Char)
    (h : ¬ (0 ≤ r ∧ r < (ROWS : ℤ) ∧ 0 ≤ c ∧ c < (COLS : ℤ))) :
    plotPoint cv r c ch = cv ∧
    ∀ (d : Canvas) (c0 r0 : ℝ), pyRound c0 = c → pyRound r0 = r →
      drawLine d c0 r0 c0 r0 = d := by
  have key : ∀ (d : Canvas) (x : Char), plotPoint d r c x = d := by
    intro d x
    simp [plotPoint, inCanvas, h]
  refine ⟨key cv ch, ?_⟩
  intro d c0 r0 hc hr
  simp only [drawLine, sub_self, Int.natAbs_zero, Nat.max_self, if_pos]
  rw [hc, hr]
  exact key d '+'

/-- C8, instantiated at row -1, column 0 on the blank canvas. -/
theorem out_of_bounds_point_skipped_witness :
    plotPoint mkCanvas (-1) 0 'o' = mkCanvas ∧
    ∀ (d : Canvas) (c0 r0 : ℝ), pyRound c0 = 0 → pyRound r0 = -1 →
      drawLine d c0 r0 c0 r0 = d :=
  out_of_bounds_point_skipped mkCanvas (-1) 0 'o' (by decide)

/-! ## C4: rotation order -/

/-- C4: `_rot` rotates by ax about X, then ay about Y, then az about Z:
it equals applying the standard right-handed rotation matrices Rx, Ry,
Rz in exactly that sequence; and no other application order agrees with
it (at angles π/2 and the point (1,2,3), each of the five other orders
gives a different result). -/
theorem rot_is_X_then_Y_then_Z :
    (∀ x y z ax ay az : ℝ,
      toVec (rot x y z ax ay az) =
        (Rz az).mulVec ((Ry ay).mulVec ((Rx ax).mulVec (toVec (x, y, z))))) ∧
    toVec (rot 1 2 3 (Real.pi / 2) (Real.pi / 2) (Real.pi / 2)) ≠
      (Ry (Real.pi / 2)).mulVec ((Rz (Real.pi / 2)).mulVec
        ((Rx (Real.pi / 2)).mulVec (toVec (1, 2, 3)))) ∧
    toVec (rot 1 2 3 (Real.pi / 2) (Real.pi / 2) (Real.pi / 2)) ≠
      (Rz (Real.pi / 2)).mulVec ((Rx (Real.pi / 2)).mulVec
        ((Ry (Real.pi / 2)).mulVec (toVec (1, 2, 3)))) ∧
    toVec (rot 1 2 3 (Real.pi / 2) (Real.pi / 2) (Real.pi / 2)) ≠
      (Rx (Real.pi / 2)).mulVec ((Rz (Real.pi / 2)).mulVec
        ((Ry (Real.pi / 2)).mulVec (toVec (1, 2, 3)))) ∧
    toVec (rot 1 2 3 (Real.pi / 2) (Real.pi / 2) (Real.pi / 2)) ≠
      (Ry (Real.pi / 2)).mulVec ((Rx (Real.pi / 2)).mulVec
        ((Rz (Real.pi / 2)).mulVec (toVec (1, 2, 3)))) ∧
    toVec (rot 1 2 3 (Real.pi / 2) (Real.pi / 2) (Real.pi / 2)) ≠
      (Rx (Real.pi / 2)).mulVec ((Ry (Real.pi / 2)).mulVec
        ((Rz (Real.pi / 2)).mulVec (toVec (1, 2, 3)))) := by
  refine ⟨?_, ?_, ?_, ?_, ?_, ?_⟩
  · intro x y z ax ay az
    funext i
    fin_cases i <;>
      simp [toVec, rot, Rx, Ry, Rz, Matrix.cons_mulVec, Matrix.cons_dotProduct,
        Matrix.dotProduct_empty, Matrix.empty_mulVec, Matrix.cons_val_zero,
        Matrix.cons_val_one, Matrix.cons_val_two, Matrix.vecHead, Matrix.vecTail] <;>
      ring
  · intro h
    have h0 := congrFun h 0
    simp [toVec, rot, Rx, Ry, Rz, Matrix.cons_mulVec, Matrix.cons_dotProduct,
      Matrix.dotProduct_empty, Matrix.empty_mulVec, Matrix.cons_val_zero,
      Matrix.cons_val_one, Matrix.cons_val_two, Matrix.vecHead, Matrix.vecTail,
      Real.sin_pi_div_two, Real.cos_pi_div_two] at h0
    all_goals norm_num at h0
  · intro h
    have h0 := congrFun h 0
    simp [toVec, rot, Rx, Ry, Rz, Matrix.cons_mulVec, Matrix.cons_dotProduct,
      Matrix.dotProduct_empty, Matrix.empty_mulVec, Matrix.cons_val_zero,
      Matrix.cons_val_one, Matrix.cons_val_two, Matrix.vecHead, Matrix.vecTail,
      Real.sin_pi_div_two, Real.cos_pi_div_two] at h0
    all_goals norm_num at h0
  · intro h
    have h0 := congrFun h 0
    simp [toVec, rot, Rx, Ry, Rz, Matrix.cons_mulVec, Matrix.cons_dotProduct,
      Matrix.dotProduct_empty, Matrix.empty_mulVec, Matrix.cons_val_zero,
      Matrix.cons_val_one, Matrix.cons_val_two, Matrix.vecHead, Matrix.vecTail,
      Real.sin_pi_div_two, Real.cos_pi_div_two] at h0
    all_goals norm_num at h0
  · intro h
    have h0 := congrFun h 0
    simp [toVec, rot, Rx, Ry, Rz, Matrix.cons_mulVec, Matrix.cons_dotProduct,
      Matrix.dotProduct_empty, Matrix.empty_mulVec, Matrix.cons_val_zero,
      Matrix.cons_val_one, Matrix.cons_val_two, Matrix.vecHead, Matrix.vecTail,
      Real.sin_pi_div_two, Real.cos_pi_div_two] at h0
    all_goals norm_num at h0
  · intro h
    have h1 := congrFun h 1
    simp [toVec, rot, Rx, Ry, Rz, Matrix.cons_mulVec, Matrix.cons_dotProduct,
      Matrix.dotProduct_empty, Matrix.empty_mulVec, Matrix.cons_val_zero,
      Matrix.cons_val_one, Matrix.cons_val_two, Matrix.vecHead, Matrix.vecTail,
      Real.sin_pi_div_two, Real.cos_pi_div_two] at h1
    all_goals norm_num at h1

/-! ## C1: visibility counts at zero rotation

With `ax = ay = az = 0` the rotation is the identity, so the transformed
vertices are the scaled cube corners `zeroRotVerts`.  The four side
faces are then edge-on (normal Z-component exactly 0) and the tie rule
`nz > 0` culls them, so only the front face is visible and only its four
edges are drawn — not three faces and nine edges. -/

lemma faceVisible_zeroRot_0 : faceVisible zeroRotVerts (FACES 0) = false := by
  rw [faceVisible, (by decide : FACES 0 = (0, 3, 2, 1)), decide_eq_false_iff_not]
  norm_num [faceNormalZ, zeroRotVerts, SCALE, (by decide : VERTS 0 = (-1, -1, -1)),
    (by decide : VERTS 3 = (-1, 1, -1)), (by decide : VERTS 2 = (1, 1, -1))]

lemma faceVisible_zeroRot_1 : faceVisible zeroRotVerts (FACES 1) = true := by
  rw [faceVisible, (by decide : FACES 1 = (4, 5, 6, 7)), decide_eq_true_eq]
  norm_num [faceNormalZ, zeroRotVerts, SCALE, (by decide : VERTS 4 = (-1, -1, 1)),
    (by decide : VERTS 5 = (1, -1, 1)), (by decide : VERTS 6 = (1, 1, 1))]

lemma faceVisible_zeroRot_2 : faceVisible zeroRotVerts (FACES 2) = false := by
  rw [faceVisible, (by decide : FACES 2 = (0, 1, 5, 4)), decide_eq_false_iff_not]
  norm_num [faceNormalZ, zeroRotVerts, SCALE, (by decide : VERTS 0 = (-1, -1, -1)),
    (by decide : VERTS 1 = (1, -1, -1)), (by decide : VERTS 5 = (1, -1, 1))]

lemma faceVisible_zeroRot_3 : faceVisible zeroRotVerts (FACES 3) = false := by
  rw [faceVisible, (by decide : FACES 3 = (2, 3, 7, 6)), decide_eq_false_iff_not]
  norm_num [faceNormalZ, zeroRotVerts, SCALE, (by decide : VERTS 2 = (1, 1, -1)),
    (by decide : VERTS 3 = (-1, 1, -1)), (by decide : VERTS 7 = (-1, 1, 1))]

lemma faceVisible_zeroRot_4 : faceVisible zeroRotVerts (FACES 4) = false := by
  rw [faceVisible, (by decide : FACES 4 = (0, 4, 7, 3)), decide_eq_false_iff_not]
  norm_num [faceNormalZ, zeroRotVerts, SCALE, (by decide : VERTS 0 = (-1, -1, -1)),
    (by decide : VERTS 4 = (-1, -1, 1)), (by decide : VERTS 7 = (-1, 1, 1))]

lemma faceVisible_zeroRot_5 : faceVisible zeroRotVerts (FACES 5) = false := by
  rw [faceVisible, (by decide : FACES 5 = (1, 2, 6, 5)), decide_eq_false_iff_not]
  norm_num [faceNormalZ, zeroRotVerts, SCALE, (by decide : VERTS 1 = (1, -1, -1)),
    (by decide : VERTS 2 = (1, 1, -1)), (by decide : VERTS 6 = (1, 1, 1))]

lemma zeroRot_visibleFaces_count :
    ((List.finRange 6).filter fun fi => faceVisible zeroRotVerts (FACES fi)).length = 1 := by
  rw [(by decide : List.finRange 6 = [0, 1, 2, 3, 4, 5])]
  simp [List.filter_cons, faceVisible_zeroRot_0, faceVisible_zeroRot_1,
    faceVisible_zeroRot_2, faceVisible_zeroRot_3, faceVisible_zeroRot_4,
    faceVisible_zeroRot_5]

lemma zeroRot_visibleEdges :
    visibleEdges zeroRotVerts = [(4, 5), (5, 6), (6, 7), (7, 4)] := by
  rw [visibleEdges, (by decide : List.finRange 6 = [0, 1, 2, 3, 4, 5])]
  simp [List.filter_cons, faceVisible_zeroRot_0, faceVisible_zeroRot_1,
    faceVisible_zeroRot_2, faceVisible_zeroRot_3, faceVisible_zeroRot_4,
    faceVisible_zeroRot_5, FACE_EDGES]

lemma zeroRot_drawnEdges_count :
    (EDGES.filter fun e => edgeDrawn zeroRotVerts e).length = 4 := by
  simp only [edgeDrawn, zeroRot_visibleEdges]
  decide

/-- C1 counterexample: at zero rotation the code does NOT classify 3 of
6 faces visible with 9 of 12 edges drawn. -/
theorem zeroRot_not_three_faces_nine_edges :
    ¬ (((List.finRange 6).filter fun fi => faceVisible zeroRotVerts (FACES fi)).length = 3 ∧
       (EDGES.filter fun e => edgeDrawn zeroRotVerts e).length = 9) := by
  intro h
  obtain ⟨ha, _⟩ := h
  have hb := zeroRot_visibleFaces_count
  omega

/-- C1 (amended): with zero rotation the rotation is the identity, so
the vertices are only scaled; exactly 1 of the 6 faces is classified
visible (the front face — the four side faces have normal Z-component
exactly 0 and are culled by the strict test) and exactly 4 of the 12
edges are selected for drawing. -/
theorem zeroRot_one_face_four_edges :
    (∀ x y z : ℝ, rot x y z 0 0 0 = (x, y, z)) ∧
    ((List.finRange 6).filter fun fi => faceVisible zeroRotVerts (FACES fi)).length = 1 ∧
    (EDGES.filter fun e => edgeDrawn zeroRotVerts e).length = 4 :=
  ⟨by intro x y z; simp [rot], zeroRot_visibleFaces_count, zeroRot_drawnEdges_count⟩

/-! ## C2: the visibility rule and the edge rule -/

instance (fi : Fin 6) (e : Fin 8 × Fin 8) : Decidable (isBoundaryEdge fi e) := by
  unfold isBoundaryEdge
  infer_instance

/-- For each of the 12 cube edges, membership in the `_FACE_EDGES` table
of a face (in either orientation) coincides with being a boundary edge
of that face in the spec's sense (a consecutive vertex pair). -/
lemma faceEdges_boundary_table (e : Fin 8 × Fin 8) (he : e ∈ EDGES) :
    ∀ fi : Fin 6, (e ∈ FACE_EDGES fi ∨ (e.2, e.1) ∈ FACE_EDGES fi) ↔ isBoundaryEdge fi e := by
  fin_cases he <;> decide

/-- C2: for every vertex list, a face is classified visible iff the
Z-component of its cross-product normal is strictly positive (exactly
zero means not visible), and an edge is drawn iff it is a boundary edge
of at least one visible face. -/
theorem faceVisibility_and_edgeRule (verts : Fin 8 → ℝ × ℝ × ℝ) :
    (∀ fi : Fin 6, (faceVisible verts (FACES fi) = true ↔ 0 < faceNormalZ verts (FACES fi))) ∧
    (∀ fi : Fin 6, faceNormalZ verts (FACES fi) = 0 → faceVisible verts (FACES fi) = false) ∧
    (∀ e ∈ EDGES, (edgeDrawn verts e = true ↔
      ∃ fi : Fin 6, faceVisible verts (FACES fi) = true ∧ isBoundaryEdge fi e)) := by
  refine ⟨?_, ?_, ?_⟩
  · intro fi
    simp [faceVisible]
  · intro fi h
    simp [faceVisible, h]
  · intro e he
    have htab := faceEdges_boundary_table e he
    simp only [edgeDrawn, Bool.or_eq_true, decide_eq_true_eq, visibleEdges,
      List.mem_flatMap, List.mem_filter, List.mem_finRange, true_and]
    constructor
    · rintro (⟨fi, hfi, hmem⟩ | ⟨fi, hfi, hmem⟩)
      · exact ⟨fi, hfi, (htab fi).1 (Or.inl hmem)⟩
      · exact ⟨fi, hfi, (htab fi).1 (Or.inr hmem)⟩
    · rintro ⟨fi, hfi, hbd⟩
      rcases (htab fi).2 hbd with hmem | hmem
      · exact Or.inl ⟨fi, hfi, hmem⟩
      · exact Or.inr ⟨fi, hfi, hmem⟩

/-! ## C3: the line drawer matches its specification

`drawLineGo` carries the previous sample as loop state, while the
specification describes sample `i - 1` in closed form; the bridge is an
induction along the index range with the invariant that the carried
state is exactly the previous sample. -/

section DrawLineEquiv

variable {K : Type} [LinearOrderedField K] [FloorRing K]

lemma drawLineGo_cons_zero (c0 r0 c1 r1 : K) (ic0 ir0 ic1 ir1 : ℤ) (steps : ℕ)
    (rest : List ℕ) (cv : Canvas) (pc pr : ℤ) :
    drawLineGo c0 r0 c1 r1 ic0 ir0 ic1 ir1 steps (0 :: rest) (cv, pc, pr) =
      drawLineGo c0 r0 c1 r1 ic0 ir0 ic1 ir1 steps rest
        (plotPoint cv (samplePoint c0 r0 c1 r1 steps 0).2 (samplePoint c0 r0 c1 r1 steps 0).1
           (glyphOf (ic1 - ic0) (ir1 - ir0)),
         (samplePoint c0 r0 c1 r1 steps 0).1, (samplePoint c0 r0 c1 r1 steps 0).2) :=
  rfl

lemma drawLineGo_cons_of_ne (c0 r0 c1 r1 : K) (ic0 ir0 ic1 ir1 : ℤ) (steps : ℕ)
    (i : ℕ) (hi : i ≠ 0) (rest : List ℕ) (cv : Canvas) (pc pr : ℤ) :
    drawLineGo c0 r0 c1 r1 ic0 ir0 ic1 ir1 steps (i :: rest) (cv, pc, pr) =
      drawLineGo c0 r0 c1 r1 ic0 ir0 ic1 ir1 steps rest
        (plotPoint cv (samplePoint c0 r0 c1 r1 steps i).2 (samplePoint c0 r0 c1 r1 steps i).1
           (glyphOf ((samplePoint c0 r0 c1 r1 steps i).1 - pc)
                    ((samplePoint c0 r0 c1 r1 steps i).2 - pr)),
         (samplePoint c0 r0 c1 r1 steps i).1, (samplePoint c0 r0 c1 r1 steps i).2) := by
  simp only [drawLineGo, if_neg hi, samplePoint, glyphOf]

lemma specStep_zero (c0 r0 c1 r1 : K) (ic0 ir0 ic1 ir1 : ℤ) (steps : ℕ) (d : Canvas) :
    specStep c0 r0 c1 r1 ic0 ir0 ic1 ir1 steps d 0 =
      plotPoint d (samplePoint c0 r0 c1 r1 steps 0).2 (samplePoint c0 r0 c1 r1 steps 0).1
        (glyphOf (ic1 - ic0) (ir1 - ir0)) :=
  rfl

lemma specStep_of_ne (c0 r0 c1 r1 : K) (ic0 ir0 ic1 ir1 : ℤ) (steps : ℕ)
    (i : ℕ) (hi : i ≠ 0) (d : Canvas) :
    specStep c0 r0 c1 r1 ic0 ir0 ic1 ir1 steps d i =
      plotPoint d (samplePoint c0 r0 c1 r1 steps i).2 (samplePoint c0 r0 c1 r1 steps i).1
        (glyphOf ((samplePoint c0 r0 c1 r1 steps i).1 - (samplePoint c0 r0 c1 r1 steps (i - 1)).1)
                 ((samplePoint c0 r0 c1 r1 steps i).2 - (samplePoint c0 r0 c1 r1 steps (i - 1)).2)) := by
  simp only [specStep, if_neg hi]

/-- The loop of `_draw_line` computes, index by index, exactly the
spec-side fold, as long as the carried previous point is the previous
sample. -/
lemma drawLineGo_eq_spec_fold (c0 r0 c1 r1 : K) (ic0 ir0 ic1 ir1 : ℤ) (steps : ℕ) :
    ∀ (n a : ℕ) (cv : Canvas) (pc pr : ℤ),
      (a ≠ 0 → pc = (samplePoint c0 r0 c1 r1 steps (a - 1)).1) →
      (a ≠ 0 → pr = (samplePoint c0 r0 c1 r1 steps (a - 1)).2) →
      (drawLineGo c0 r0 c1 r1 ic0 ir0 ic1 ir1 steps (List.range' a n) (cv, pc, pr)).1 =
        (List.range' a n).foldl (specStep c0 r0 c1 r1 ic0 ir0 ic1 ir1 steps) cv
  | 0, _, _, _, _, _, _ => rfl
  | n + 1, a, cv, pc, pr, hpc, hpr => by
      rw [List.range'_succ, List.foldl_cons]
      by_cases ha : a = 0
      · subst ha
        rw [drawLineGo_cons_zero, specStep_zero]
        exact drawLineGo_eq_spec_fold c0 r0 c1 r1 ic0 ir0 ic1 ir1 steps n (0 + 1) _ _ _
          (fun _ => rfl) (fun _ => rfl)
      · rw [drawLineGo_cons_of_ne c0 r0 c1 r1 ic0 ir0 ic1 ir1 steps a ha,
          specStep_of_ne c0 r0 c1 r1 ic0 ir0 ic1 ir1 steps a ha, hpc ha, hpr ha]
        exact drawLineGo_eq_spec_fold c0 r0 c1 r1 ic0 ir0 ic1 ir1 steps n (a + 1) _ _ _
          (fun _ => by rw [Nat.add_sub_cancel]) (fun _ => by rw [Nat.add_sub_cancel])

lemma drawLine_eq_spec (cv : Canvas) (c0 r0 c1 r1 : K) :
    drawLine cv c0 r0 c1 r1 = drawLineSpec cv c0 r0 c1 r1 := by
  simp only [drawLine, drawLineSpec]
  by_cases h : max (pyRound c1 - pyRound c0).natAbs (pyRound r1 - pyRound r0).natAbs = 0
  · rw [if_pos h, if_pos h]
  · rw [if_neg h, if_neg h, List.range_eq_range']
    exact drawLineGo_eq_spec_fold c0 r0 c1 r1 (pyRound c0) (pyRound r0) (pyRound c1)
      (pyRound r1) _ _ 0 cv _ _ (fun h0 => absurd rfl h0) (fun h0 => absurd rfl h0)

end DrawLineEquiv

/-- C3: for every canvas and real endpoints, `_draw_line` behaves
exactly as described: it rounds the endpoints, takes
`steps = max(|Δcolumn|, |Δrow|)` of the rounded deltas, plots a single
"+" when `steps = 0`, and otherwise plots, for each `i` in `0..steps`,
the rounding of the interpolation of the unrounded endpoints at `i/steps`,
the glyph chosen from the local direction (rounded-start → rounded-end
for `i = 0`, previous-sample → current-sample for `i > 0`), each write
overwriting prior cell content. -/
theorem drawLine_matches_spec (cv : Canvas) (c0 r0 c1 r1 : ℝ) :
    drawLine cv c0 r0 c1 r1 = drawLineSpec cv c0 r0 c1 r1 :=
  drawLine_eq_spec cv c0 r0 c1 r1

/-! ## C6 and C10: canvas shape and character-set invariants -/

/-- The canvas invariant every rendering step preserves: ROWS rows, each
of COLS cells, every cell one of the seven glyphs. -/
def canvasWF (cv : Canvas) : Prop :=
  cv.length = ROWS ∧ ∀ row ∈ cv, row.length = COLS ∧ ∀ ch ∈ row, ch ∈ glyphList

lemma mkCanvas_wf : canvasWF mkCanvas := by
  refine ⟨by simp [mkCanvas], ?_⟩
  intro row hrow
  rw [mkCanvas] at hrow
  rw [List.eq_of_mem_replicate hrow]
  refine ⟨by simp, ?_⟩
  intro ch hch
  rw [List.eq_of_mem_replicate hch]
  decide

lemma glyphOf_mem (sc sr : ℤ) : glyphOf sc sr ∈ glyphList := by
  unfold glyphOf
  repeat' split
  all_goals decide

lemma plotPoint_wf (cv : Canvas) (r c : ℤ) (ch : Char) (hch : ch ∈ glyphList)
    (h : canvasWF cv) : canvasWF (plotPoint cv r c ch) := by
  obtain ⟨hlen, hrows⟩ := h
  unfold plotPoint
  split
  case isFalse => exact ⟨hlen, hrows⟩
  case isTrue hin =>
    simp only [inCanvas, decide_eq_true_eq] at hin
    obtain ⟨hr0, hr1, hc0, hc1⟩ := hin
    have hrn : r.toNat < cv.length := by
      rw [hlen]
      omega
    have hget : cv.getD r.toNat [] ∈ cv := by
      rw [List.getD_eq_getElem?_getD, List.getElem?_eq_getElem hrn, Option.getD_some]
      exact List.getElem_mem hrn
    constructor
    · rw [List.length_set]
      exact hlen
    · intro row hrow
      rcases List.mem_or_eq_of_mem_set hrow with hmem | heq
      · exact hrows row hmem
      · obtain ⟨hrlen, hrchars⟩ := hrows _ hget
        subst heq
        refine ⟨by rw [List.length_set]; exact hrlen, ?_⟩
        intro x hx
        rcases List.mem_or_eq_of_mem_set hx with hxm | hxe
        · exact hrchars x hxm
        · rw [hxe]
          exact hch

section CanvasInv

variable {K : Type} [LinearOrderedField K] [FloorRing K]

lemma drawLineGo_wf (c0 r0 c1 r1 : K) (ic0 ir0 ic1 ir1 : ℤ) (steps : ℕ) :
    ∀ (l : List ℕ) (st : Canvas × ℤ × ℤ), canvasWF st.1 →
      canvasWF (drawLineGo c0 r0 c1 r1 ic0 ir0 ic1 ir1 steps l st).1
  | [], _, h => h
  | i :: rest, (cv, pc, pr), h => by
      by_cases hi : i = 0
      · subst hi
        rw [drawLineGo_cons_zero]
        exact drawLineGo_wf c0 r0 c1 r1 ic0 ir0 ic1 ir1 steps rest _
          (plotPoint_wf _ _ _ _ (glyphOf_mem _ _) h)
      · rw [drawLineGo_cons_of_ne c0 r0 c1 r1 ic0 ir0 ic1 ir1 steps i hi]
        exact drawLineGo_wf c0 r0 c1 r1 ic0 ir0 ic1 ir1 steps rest _
          (plotPoint_wf _ _ _ _ (glyphOf_mem _ _) h)

lemma drawLine_wf (cv : Canvas) (c0 r0 c1 r1 : K) (h : canvasWF cv) :
    canvasWF (drawLine cv c0 r0 c1 r1) := by
  simp only [drawLine]
  split
  · exact plotPoint_wf _ _ _ _ (by decide) h
  · exact drawLineGo_wf c0 r0 c1 r1 _ _ _ _ _ _ (cv, _, _) h

lemma foldl_preserves_wf {β : Type} (f : Canvas → β → Canvas)
    (hf : ∀ cv b, canvasWF cv → canvasWF (f cv b)) :
    ∀ (l : List β) (cv : Canvas), canvasWF cv → canvasWF (l.foldl f cv)
  | [], _, h => h
  | b :: l, cv, h => foldl_preserves_wf f hf l (f cv b) (hf cv b h)

lemma renderCanvas_wf (verts_3d : Fin 8 → K × K × K) : canvasWF (renderCanvas verts_3d) := by
  simp only [renderCanvas]
  apply foldl_preserves_wf
  · intro cv i h
    exact plotPoint_wf _ _ _ _ (by decide) h
  · apply foldl_preserves_wf
    · intro cv e h
      dsimp only
      split
      · exact drawLine_wf _ _ _ _ _ h
      · exact h
    · exact mkCanvas_wf

lemma renderString_splitOn (verts_3d : Fin 8 → K × K × K) :
    List.splitOn '\n' (renderString verts_3d).toList = renderCanvas verts_3d := by
  obtain ⟨hlen, hrows⟩ := renderCanvas_wf verts_3d
  have hnonl : ∀ l ∈ renderCanvas verts_3d, '\n' ∉ l := by
    intro l hl hmem
    exact absurd ((hrows l hl).2 _ hmem) (by decide)
  have hne : renderCanvas verts_3d ≠ [] := by
    intro h0
    rw [h0] at hlen
    exact absurd hlen (by decide)
  rw [show (renderString verts_3d).toList = List.intercalate ['\n'] (renderCanvas verts_3d) from rfl]
  exact List.splitOn_intercalate _ '\n' hnonl hne

end CanvasInv

/-- C6: every one of the 36 frame strings consists of exactly ROWS = 17
newline-separated lines, each exactly COLS = 42 characters long. -/
theorem renderFrame_shape (i : ℕ) (h : i < NUM_FRAMES) :
    (List.splitOn '\n' (renderFrame i).toList).length = ROWS ∧
    ((List.splitOn '\n' (renderFrame i).toList).all fun row => row.length == COLS) = true := by
  obtain ⟨hlen, hrows⟩ := renderCanvas_wf (frameVerts i)
  rw [show (renderFrame i).toList = (renderString (frameVerts i)).toList from rfl,
    renderString_splitOn]
  refine ⟨hlen, ?_⟩
  rw [List.all_eq_true]
  intro row hr
  simpa using (hrows row hr).1

/-- C6, instantiated at frame index 0. -/
theorem renderFrame_shape_witness :
    (List.splitOn '\n' (renderFrame 0).toList).length = ROWS ∧
    ((List.splitOn '\n' (renderFrame 0).toList).all fun row => row.length == COLS) = true :=
  renderFrame_shape 0 (by decide)

/-- C10: besides the newline separators, every character of every
rendered frame string is one of the seven glyphs space, "-", "|", "\",
"/", "+", "o". -/
theorem renderFrame_charset (i : ℕ) :
    ((List.splitOn '\n' (renderFrame i).toList).all fun row =>
      row.all fun ch => decide (ch ∈ glyphList)) = true := by
  obtain ⟨_, hrows⟩ := renderCanvas_wf (frameVerts i)
  rw [show (renderFrame i).toList = (renderString (frameVerts i)).toList from rfl,
    renderString_splitOn, List.all_eq_true]
  intro row hr
  rw [List.all_eq_true]
  intro ch hch
  exact decide_eq_true ((hrows row hr).2 ch hch)

end GenFrames
